import Mathlib

/-!
# Verification of the polling backend's real-time vote core

Shallow embedding of the vote-casting, tally, broadcast and room-join
logic of the polling backend (Express + Prisma + Socket.IO).  The Prisma
store is modelled as lists of rows; Prisma queries become list
operations in query order (`find?` models `findUnique` / `findFirst`,
which return the first matching row).

Sources embedded here:
* `prisma/migrations/20250912043026_init/migration.sql` — table shapes
  and the unique index `votes_user_id_poll_option_id_key` on
  `(user_id, poll_option_id)`;
* `VoteController.submitVote` — the vote-casting controller;
* `setupWebSocket` (`join-poll` handler and `broadcastVoteUpdate`);
* `PollController.getPollResults`, `updatePoll`, `publishPoll`.
-/

namespace Polling

/-- A row of the `polls` table: id, question, `is_published` flag, creator. -/
structure Poll where
  id : String
  question : String
  isPublished : Bool
  creatorId : String
deriving Repr, DecidableEq

/-- A row of the `poll_options` table: id, display text, owning poll. -/
structure PollOption where
  id : String
  text : String
  pollId : String
deriving Repr, DecidableEq

/-- A row of the `votes` table: id, voting user, chosen option. -/
structure Vote where
  id : String
  userId : String
  pollOptionId : String
deriving Repr, DecidableEq

/-- The durable store: the three tables the vote core touches. -/
structure Store where
  polls : List Poll
  options : List PollOption
  votes : List Vote
deriving Repr, DecidableEq

/-- Models `prisma.poll.findUnique({ where: { id, isPublished: true } })`:
the first poll row with the given id that is published. -/
def findPublishedPoll (s : Store) (pollId : String) : Option Poll :=
  s.polls.find? (fun p => p.id == pollId && p.isPublished)

/-- The `include: { options: { where: { id: pollOptionId } } }` sub-query of
`submitVote`: the poll's option rows whose id is the requested option. -/
def matchingOptions (s : Store) (pollId optionId : String) : List PollOption :=
  s.options.filter (fun o => o.pollId == pollId && o.id == optionId)

/-- Models `prisma.vote.findFirst({ where: { userId, pollOption: { pollId } } })`:
the first vote of the user whose related option row belongs to the poll. -/
def findVoteOfUserOnPoll (s : Store) (userId pollId : String) : Option Vote :=
  s.votes.find? (fun v =>
    v.userId == userId &&
      s.options.any (fun o => o.id == v.pollOptionId && o.pollId == pollId))

/-- The poll an option id points at: the first option row carrying that id
(the FK path `votes.poll_option_id → poll_options.poll_id`). -/
def pollOfOption (opts : List PollOption) (optionId : String) : Option String :=
  (opts.find? (fun o => o.id == optionId)).map (fun o => o.pollId)

/-- The poll a vote belongs to, through its option row. -/
def pollOfVote (s : Store) (v : Vote) : Option String :=
  pollOfOption s.options v.pollOptionId

/-- The unique index `votes_user_id_poll_option_id_key` of the migration:
no two vote rows share the same `(user_id, poll_option_id)` pair. -/
def votesUniqueIndexOk : List Vote → Bool
  | [] => true
  | v :: vs =>
      !(vs.any (fun w => w.userId == v.userId && w.pollOptionId == v.pollOptionId)) &&
        votesUniqueIndexOk vs

/-- Two votes by the same user that land (through their option rows) on the
same existing poll. -/
def sameUserSamePoll (opts : List PollOption) (v w : Vote) : Bool :=
  w.userId == v.userId &&
    (pollOfOption opts w.pollOptionId).isSome &&
    pollOfOption opts w.pollOptionId == pollOfOption opts v.pollOptionId

/-- No two votes in the list are by one user on one poll. -/
def atMostOneAux (opts : List PollOption) : List Vote → Bool
  | [] => true
  | v :: vs => !(vs.any (fun w => sameUserSamePoll opts v w)) && atMostOneAux opts vs

/-- The spec's invariant: at most one vote per (user, poll), the poll being
reached through the vote's option row. -/
def atMostOneVotePerUserPoll (s : Store) : Bool :=
  atMostOneAux s.options s.votes

/-- Application-level failures thrown by `submitVote` before any write
(`createError` with HTTP status 404, 400 and 409 respectively). -/
inductive VoteError where
  | pollNotFoundOrNotPublished
  | invalidPollOption
  | alreadyVotedForOption
deriving Repr, DecidableEq

/-- Prisma errors surfaced by the store at write time: `P2002` (unique
constraint violation) and `P2025` (record to update not found). -/
inductive DbError where
  | uniqueViolation
  | recordNotFound
deriving Repr, DecidableEq

/-- The decision `submitVote` reaches after its read phase, before writing. -/
inductive ReadOutcome where
  | err (e : VoteError)
  | create
  | move (existing : Vote)
deriving Repr, DecidableEq

/-- The read phase of `VoteController.submitVote`: the published-poll lookup,
the option-membership check, and the existing-vote lookup, exactly in source
order.  No write happens here. -/
def readPhase (s : Store) (userId pollId optionId : String) : ReadOutcome :=
  match findPublishedPoll s pollId with
  | none => .err .pollNotFoundOrNotPublished
  | some _ =>
      if (matchingOptions s pollId optionId).isEmpty then
        .err .invalidPollOption
      else
        match findVoteOfUserOnPoll s userId pollId with
        | some ev =>
            if ev.pollOptionId == optionId then .err .alreadyVotedForOption
            else .move ev
        | none => .create

/-- Models `prisma.vote.create`: the database refuses the row when it collides with
the unique index `(user_id, poll_option_id)` (error `P2002`), else appends. -/
def insertVote (s : Store) (v : Vote) : Except DbError Store :=
  if s.votes.any (fun w => w.userId == v.userId && w.pollOptionId == v.pollOptionId) then
    .error .uniqueViolation
  else
    .ok { s with votes := s.votes ++ [v] }

/-- The store after the row with primary key `voteId` is repointed at
`optionId`, all other rows untouched. -/
def moveVote (s : Store) (voteId optionId : String) : Store :=
  { s with votes :=
    s.votes.map (fun v =>
      if v.id == voteId then { v with pollOptionId := optionId } else v) }

/-- Models `prisma.vote.update({ where: { id }, data: { pollOptionId } })`: updates
the row with that primary key in place, `P2025` when it is gone. -/
def updateVoteOption (s : Store) (voteId optionId : String) : Except DbError Store :=
  if s.votes.any (fun v => v.id == voteId) then
    .ok (moveVote s voteId optionId)
  else
    .error .recordNotFound

/-- Every way a `submitVote` call can fail. -/
inductive SubmitError where
  | app (e : VoteError)
  | db (e : DbError)
deriving Repr, DecidableEq

/-- The controller's success message: `created` for a fresh vote row,
`moved` for a revote updated in place. -/
inductive VoteStatus where
  | created
  | moved
deriving Repr, DecidableEq

instance {ε α : Type} [DecidableEq ε] [DecidableEq α] : DecidableEq (Except ε α) :=
  fun a b =>
    match a, b with
    | .error e, .error f =>
        decidable_of_iff (e = f) ⟨fun h => by rw [h], fun h => by injection h⟩
    | .error _, .ok _ => .isFalse (fun hc => by injection hc)
    | .ok _, .error _ => .isFalse (fun hc => by injection hc)
    | .ok x, .ok y =>
        decidable_of_iff (x = y) ⟨fun h => by rw [h], fun h => by injection h⟩

/-- The write phase of `submitVote`: applies the read phase's decision to a
store.  Taking the store as a parameter separate from the one the read ran
on is what lets interleavings of two concurrent requests be expressed;
`submitVote` below runs both phases on the same store (sequential call). -/
def writePhase (s : Store) (userId optionId freshVoteId : String) :
    ReadOutcome → Except SubmitError (Store × VoteStatus)
  | .err e => .error (.app e)
  | .create =>
      match insertVote s ⟨freshVoteId, userId, optionId⟩ with
      | .error e => .error (.db e)
      | .ok s' => .ok (s', .created)
  | .move ev =>
      match updateVoteOption s ev.id optionId with
      | .error e => .error (.db e)
      | .ok s' => .ok (s', .moved)

/-- Models `VoteController.submitVote` run sequentially: read phase then write phase
against the same store.  `freshVoteId` stands for the cuid Prisma generates
for a created row. -/
def submitVote (s : Store) (userId pollId optionId freshVoteId : String) :
    Except SubmitError (Store × VoteStatus) :=
  writePhase s userId optionId freshVoteId (readPhase s userId pollId optionId)

/-! ## Tally snapshots and the Socket.IO layer -/

/-- The vote rows counted by `_count: { select: { votes: true } }` for one
option row. -/
def votesOnOption (s : Store) (optionId : String) : List Vote :=
  s.votes.filter (fun v => v.pollOptionId == optionId)

/-- The option rows of a poll (`include: { options: ... }`). -/
def optionsOfPoll (s : Store) (pollId : String) : List PollOption :=
  s.options.filter (fun o => o.pollId == pollId)

/-- The vote rows belonging to a poll through their option row: the ledger's
true per-poll vote count is the length of this list. -/
def votesOnPoll (s : Store) (pollId : String) : List Vote :=
  s.votes.filter (fun v =>
    s.options.any (fun o => o.id == v.pollOptionId && o.pollId == pollId))

/-- One entry of the `options` array of a pushed snapshot:
`{ id, text, voteCount }`. -/
structure OptionTally where
  id : String
  text : String
  voteCount : Nat
deriving Repr, DecidableEq

/-- The `PollData` payload sent on `poll-data` and `poll-updated`:
per-option counts plus `totalVotes` computed by
`options.reduce((sum, option) => sum + option._count.votes, 0)`. -/
structure PollData where
  id : String
  question : String
  options : List OptionTally
  totalVotes : Nat
deriving Repr, DecidableEq

/-- Builds the snapshot the WebSocket layer sends: each option with its
vote count, and their sum as `totalVotes`.  Matches both the `join-poll`
handler and `broadcastVoteUpdate` (which recompute it from the store). -/
def pollSnapshot (s : Store) (p : Poll) : PollData :=
  let opts := (optionsOfPoll s p.id).map (fun o =>
    OptionTally.mk o.id o.text (votesOnOption s o.id).length)
  PollData.mk p.id p.question opts (opts.map (fun o => o.voteCount)).sum

/-- Where a Socket.IO emission is addressed. -/
inductive EmitTarget where
  | toSession (sessionId : String)
  | toRoom (room : String)
  | toRoomExceptSelf (room : String) (sessionId : String)
deriving Repr, DecidableEq

/-- The payloads the handlers emit. -/
inductive EmitPayload where
  | pollData (d : PollData)
  | pollUpdated (d : PollData)
  | errorMsg (m : String)
  | userJoinedPoll (userCount : Nat)
deriving Repr, DecidableEq

/-- One Socket.IO emission. -/
structure Emission where
  target : EmitTarget
  payload : EmitPayload
deriving Repr, DecidableEq

/-- The room name `poll-${pollId}`. -/
def roomName (pollId : String) : String := "poll-" ++ pollId

/-- The body of `broadcastVoteUpdate` before its `catch`: looks the poll up
with no publication filter, returns without emitting when it is absent, else
emits one `poll-updated` snapshot to the poll's room.  `emitFailure` injects
an error thrown by recomputation or emission (the environment failing). -/
def broadcastVoteUpdateBody (s : Store) (pollId : String)
    (emitFailure : Option String) : Except String (List Emission) :=
  match s.polls.find? (fun p => p.id == pollId) with
  | none => .ok []
  | some p =>
      match emitFailure with
      | some e => .error e
      | none => .ok [Emission.mk (.toRoom (roomName pollId)) (.pollUpdated (pollSnapshot s p))]

/-- Models `broadcastVoteUpdate`: the whole body is wrapped in `try ... catch` that
logs and swallows, so the caller always gets a plain emission list back and
never an error. -/
def broadcastVoteUpdate (s : Store) (pollId : String)
    (emitFailure : Option String) : List Emission :=
  match broadcastVoteUpdateBody s pollId emitFailure with
  | .ok es => es
  | .error _ => []

/-- System state seen by the controller: the durable store plus the log of
everything emitted on the socket layer so far. -/
structure SysState where
  store : Store
  emitted : List Emission
deriving Repr, DecidableEq

/-- Models `VoteController.submitVote` end to end: on success the controller calls
`io.broadcastVoteUpdate(pollId)`; on a thrown error the store is untouched
and nothing is emitted (every throw happens before the write). -/
def submitVoteFull (st : SysState) (userId pollId optionId freshVoteId : String)
    (emitFailure : Option String) : SysState × Except SubmitError VoteStatus :=
  match submitVote st.store userId pollId optionId freshVoteId with
  | .error e => (st, .error e)
  | .ok (s', status) =>
      (SysState.mk s' (st.emitted ++ broadcastVoteUpdate s' pollId emitFailure), .ok status)

/-- A vote request against a fixed poll: the voting user, the chosen option,
and the id Prisma would mint for a created row. -/
structure VoteReq where
  userId : String
  optionId : String
  freshVoteId : String
deriving Repr, DecidableEq

/-- A sequence of `submitVote` calls on one poll, each applied to the state
the previous call left behind (the serialized execution of the controller). -/
def runVotes (pid : String) : SysState → List VoteReq → SysState
  | st, [] => st
  | st, r :: rs =>
      runVotes pid (submitVoteFull st r.userId pid r.optionId r.freshVoteId none).fst rs

/-- The totals carried by the `poll-updated` broadcasts addressed to a poll's
room, in emission order: the tally sequence a session in that room observes. -/
def updateTotalsFor (pid : String) (es : List Emission) : List Nat :=
  es.filterMap (fun e =>
    match e.target, e.payload with
    | .toRoom room, .pollUpdated d =>
        if room == roomName pid then some d.totalVotes else none
    | _, _ => none)

/-- The `join-poll` handler: rejects a falsy poll id, rejects a poll that is
missing or unpublished without touching any room, else joins the room and
sends the joining session one fresh snapshot plus a presence ping to the
others.  Rooms are the `(room, sessionId)` membership pairs. -/
def joinPoll (s : Store) (rooms : List (String × String)) (sessionId pollId : String) :
    List (String × String) × List Emission :=
  if pollId == "" then
    (rooms, [Emission.mk (.toSession sessionId) (.errorMsg "Invalid poll ID provided")])
  else
    match findPublishedPoll s pollId with
    | none =>
        (rooms, [Emission.mk (.toSession sessionId)
          (.errorMsg "Poll not found or not published")])
    | some p =>
        let room := roomName pollId
        let rooms' := rooms ++ [(room, sessionId)]
        (rooms',
          [Emission.mk (.toSession sessionId) (.pollData (pollSnapshot s p)),
           Emission.mk (.toRoomExceptSelf room sessionId)
             (.userJoinedPoll (rooms'.filter (fun m => m.fst == room)).length)])

/-! ## Poll update and publication (`PollController`) -/

/-- The body accepted by `updatePollSchema`: both fields optional, and
`isPublished` is any boolean — `false` included. -/
structure UpdatePollInput where
  question : Option String
  isPublished : Option Bool
deriving Repr, DecidableEq

/-- The `data` object of `PollController.updatePoll`:
`...(question && { question })` drops the question when it is absent or the
empty string (JS falsiness), while `...(isPublished !== undefined &&
{ isPublished })` applies any present boolean, `false` included. -/
def updatePollApply (inp : UpdatePollInput) (p : Poll) : Poll :=
  { p with
    question :=
      match inp.question with
      | some q => if q == "" then p.question else q
      | none => p.question,
    isPublished := inp.isPublished.getD p.isPublished }

/-- Models `PollController.publishPoll`: sets `isPublished` to `true`, nothing else. -/
def publishPollApply (p : Poll) : Poll :=
  { p with isPublished := true }

/-! ## Poll results (`PollController.getPollResults`) -/

/-- Models `Number.prototype.toFixed(1)` on an exact rational: round to the nearest
tenth, ties away from zero (for the nonnegative values arising here this is
`round` on ten times the value). -/
def toFixed1 (x : ℚ) : ℚ := (round (x * 10) : ℚ) / 10

/-- One entry of the `options` array of `getPollResults`. -/
structure OptionResult where
  id : String
  text : String
  voteCount : Nat
  percentage : ℚ
deriving Repr, DecidableEq

/-- The `results` object of `getPollResults`. -/
structure PollResults where
  pollId : String
  question : String
  totalVotes : Nat
  options : List OptionResult
deriving Repr, DecidableEq

/-- Models `PollController.getPollResults`: looks the poll up by id alone (no
publication filter), 404 when absent; computes `totalVotes` as the sum of
per-option counts and each option's percentage as
`totalVotes > 0 ? ((count / totalVotes) * 100).toFixed(1) : '0'`. -/
def getPollResults (s : Store) (pollId : String) : Option PollResults :=
  (s.polls.find? (fun p => p.id == pollId)).map (fun p =>
    let opts := optionsOfPoll s p.id
    let totalVotes := (opts.map (fun o => (votesOnOption s o.id).length)).sum
    PollResults.mk p.id p.question totalVotes
      (opts.map (fun o =>
        OptionResult.mk o.id o.text (votesOnOption s o.id).length
          (if totalVotes > 0 then
            toFixed1 (((votesOnOption s o.id).length : ℚ) / (totalVotes : ℚ) * 100)
          else 0))))

/-- From the spec's words, for comparison with the code's computation:
"percentage = count/total×100 rounded to one decimal (0 when total is 0)". -/
def specPercentage (count total : Nat) : ℚ :=
  if total = 0 then 0
  else (round ((count : ℚ) / (total : ℚ) * 100 * 10) : ℚ) / 10

/-! ## Concrete fixtures used by witnesses and counterexamples -/

/-- A published poll with two options. -/
def samplePoll : Poll := Poll.mk "p1" "Favorite color?" true "creator1"

/-- The two option rows of `samplePoll`. -/
def sampleOptions : List PollOption :=
  [PollOption.mk "o1" "Red" "p1", PollOption.mk "o2" "Blue" "p1"]

/-- The published poll with its options and an empty vote table. -/
def sampleStore : Store := Store.mk [samplePoll] sampleOptions []

/-- A state the unique index of the migration accepts: the same user holds
one vote on each of the two options of the same poll. -/
def dualVoteStore : Store :=
  Store.mk [samplePoll] sampleOptions
    [Vote.mk "v1" "u1" "o1", Vote.mk "v2" "u1" "o2"]

/-- A store with one existing vote: `u1` voted `o1` on the published poll. -/
def votedStore : Store :=
  Store.mk [samplePoll] sampleOptions [Vote.mk "v1" "u1" "o1"]

/-- An unpublished poll and its store, for the `NotPublished` branch. -/
def draftPoll : Poll := Poll.mk "p2" "Still a draft?" false "creator1"

/-- Store holding only the unpublished `draftPoll` and one option. -/
def draftStore : Store :=
  Store.mk [draftPoll] [PollOption.mk "o3" "Maybe" "p2"] []

/-- The store after request A of the race inserted `u1`'s vote for `o1`. -/
def raceStoreAfterA : Store :=
  Store.mk [samplePoll] sampleOptions [Vote.mk "va" "u1" "o1"]

/-- The store after request B of the race also inserted a vote for `o2`:
two vote rows by `u1` on poll `p1`. -/
def raceStoreFinal : Store :=
  Store.mk [samplePoll] sampleOptions
    [Vote.mk "va" "u1" "o1", Vote.mk "vb" "u1" "o2"]

/-- The spec's concrete scenario: `u1` votes A, `u2` votes B, `u1` revotes B. -/
def scenarioReqs : List VoteReq :=
  [VoteReq.mk "u1" "o1" "w1", VoteReq.mk "u2" "o2" "w2", VoteReq.mk "u1" "o2" "w3"]

/-- The concrete `getPollResults` payload for `votedStore`. -/
def votedResults : PollResults :=
  PollResults.mk "p1" "Favorite color?" 1
    [OptionResult.mk "o1" "Red" 1 100, OptionResult.mk "o2" "Blue" 0 0]

/-! ## Counting lemmas: per-option counts partition the poll's votes -/

/-- An `any` over a filtered list is an `any` of the conjunction. -/
lemma any_filter_comm (l : List PollOption) (p q : PollOption → Bool) :
    (l.filter p).any q = l.any (fun a => p a && q a) := by
  induction l with
  | nil => rfl
  | cons a l ih =>
      by_cases h : p a = true <;> simp [List.filter_cons, h, List.any_cons, ih]

/-- With duplicate-free option ids, the number of options carrying a given id
is one when some option carries it and zero otherwise. -/
lemma countP_id_eq_of_nodup (opts : List PollOption) (x : String)
    (hnd : (opts.map (fun o => o.id)).Nodup) :
    opts.countP (fun o => o.id == x)
      = if opts.any (fun o => o.id == x) then 1 else 0 := by
  induction opts with
  | nil => rfl
  | cons o os ih =>
      simp only [List.map_cons, List.nodup_cons] at hnd
      by_cases h : o.id = x
      · have hz : os.countP (fun o => o.id == x) = 0 := by
          apply List.countP_eq_zero.mpr
          intro a ha hax
          exact hnd.1 (by
            rw [beq_iff_eq] at hax
            exact List.mem_map.mpr ⟨a, ha, by rw [hax, h]⟩)
        simp [List.countP_cons, List.any_cons, h, hz]
      · simp [List.countP_cons, List.any_cons, h, ih hnd.2]

/-- Prepending one vote to the counted list raises the per-option sums by the
number of options carrying that vote's option id. -/
lemma sum_filter_cons (opts : List PollOption) (v : Vote) (vs : List Vote) :
    (opts.map (fun o => ((v :: vs).filter (fun w => w.pollOptionId == o.id)).length)).sum
      = (opts.map (fun o => (vs.filter (fun w => w.pollOptionId == o.id)).length)).sum
        + opts.countP (fun o => o.id == v.pollOptionId) := by
  induction opts with
  | nil => simp
  | cons o os iho =>
      simp only [List.map_cons, List.sum_cons, List.countP_cons]
      rw [iho, List.filter_cons]
      by_cases h : v.pollOptionId = o.id
      · have h' : (o.id == v.pollOptionId) = true := by rw [beq_iff_eq]; exact h.symm
        have h'' : (v.pollOptionId == o.id) = true := by rw [beq_iff_eq]; exact h
        simp only [h', h'', if_true, List.length_cons]
        omega
      · have h' : (o.id == v.pollOptionId) = false := by
          rw [Bool.eq_false_iff]
          intro hc; rw [beq_iff_eq] at hc; exact h hc.symm
        have h'' : (v.pollOptionId == o.id) = false := by
          rw [Bool.eq_false_iff]
          intro hc; rw [beq_iff_eq] at hc; exact h hc
        simp only [h', h'', Bool.false_eq_true, if_false]
        omega

/-- Double counting: summing per-option vote counts over a duplicate-free
option list counts every vote whose option id occurs in the list, once. -/
lemma sum_counts_eq_countP (opts : List PollOption) (votes : List Vote)
    (hnd : (opts.map (fun o => o.id)).Nodup) :
    (opts.map (fun o => (votes.filter (fun v => v.pollOptionId == o.id)).length)).sum
      = votes.countP (fun v => opts.any (fun o => o.id == v.pollOptionId)) := by
  induction votes with
  | nil => simp
  | cons v vs ih =>
      rw [List.countP_cons, ← ih, sum_filter_cons opts v vs,
        countP_id_eq_of_nodup opts v.pollOptionId hnd]

/-- The filtered option ids of a poll stay duplicate-free. -/
lemma optionsOfPoll_ids_nodup (s : Store) (pollId : String)
    (hnd : (s.options.map (fun o => o.id)).Nodup) :
    ((optionsOfPoll s pollId).map (fun o => o.id)).Nodup :=
  List.Nodup.sublist
    (List.Sublist.map (fun o => o.id) (List.filter_sublist s.options)) hnd

/-- With duplicate-free option ids, summing the per-option vote counts of a
poll gives the ledger's true count of votes on the poll. -/
lemma sum_option_counts (s : Store) (pid : String)
    (hnd : (s.options.map (fun o => o.id)).Nodup) :
    ((optionsOfPoll s pid).map (fun o => (votesOnOption s o.id).length)).sum
      = (votesOnPoll s pid).length := by
  have h1 : ((optionsOfPoll s pid).map (fun o => (votesOnOption s o.id).length)).sum
      = ((optionsOfPoll s pid).map
          (fun o => (s.votes.filter (fun v => v.pollOptionId == o.id)).length)).sum := rfl
  rw [h1, sum_counts_eq_countP _ _ (optionsOfPoll_ids_nodup s pid hnd)]
  rw [votesOnPoll, ← List.countP_eq_length_filter]
  congr 1
  funext v
  unfold optionsOfPoll
  rw [any_filter_comm s.options (fun o => o.pollId == pid) (fun o => o.id == v.pollOptionId)]
  induction s.options with
  | nil => rfl
  | cons o os ih => simp [List.any_cons, ih, Bool.and_comm]

/-- With duplicate-free option ids, the snapshot's `totalVotes` equals the
ledger's true count of votes on the poll. -/
lemma pollSnapshot_totalVotes (s : Store) (p : Poll)
    (hnd : (s.options.map (fun o => o.id)).Nodup) :
    (pollSnapshot s p).totalVotes = (votesOnPoll s p.id).length := by
  have h1 : (pollSnapshot s p).totalVotes
      = ((optionsOfPoll s p.id).map (fun o => (votesOnOption s o.id).length)).sum := by
    simp [pollSnapshot, List.map_map, Function.comp_def]
  rw [h1, sum_option_counts s p.id hnd]

/-- A nonempty `matchingOptions` result yields the option-membership test in
the orientation `votesOnPoll` uses. -/
lemma any_id_poll_of_matching (s : Store) (pollId optionId : String)
    (h : (matchingOptions s pollId optionId).isEmpty = false) :
    s.options.any (fun o => o.id == optionId && o.pollId == pollId) = true := by
  match hm : matchingOptions s pollId optionId with
  | [] => rw [hm] at h; simp at h
  | o :: rest =>
      have ho : o ∈ matchingOptions s pollId optionId := by
        rw [hm]; exact List.mem_cons_self o rest
      have hmem := List.mem_filter.mp ho
      rcases Bool.and_eq_true_iff.mp hmem.2 with ⟨h1, h2⟩
      exact List.any_eq_true.mpr ⟨o, hmem.1, Bool.and_eq_true_iff.mpr ⟨h2, h1⟩⟩

/-- Repointing one existing vote of a poll at another option of the same poll
leaves the poll's true vote count unchanged. -/
lemma votesOnPoll_moveVote (s : Store) (pollId optionId : String) (ev : Vote)
    (hndVote : (s.votes.map (fun v => v.id)).Nodup)
    (hmem : ev ∈ s.votes)
    (hev_on : s.options.any (fun o => o.id == ev.pollOptionId && o.pollId == pollId) = true)
    (hopt_on : s.options.any (fun o => o.id == optionId && o.pollId == pollId) = true) :
    (votesOnPoll (moveVote s ev.id optionId) pollId).length
      = (votesOnPoll s pollId).length := by
  simp only [votesOnPoll, moveVote, ← List.countP_eq_length_filter, List.countP_map]
  apply List.countP_congr
  intro v hv
  by_cases hid : (v.id == ev.id) = true
  · have hveq : v = ev :=
      List.inj_on_of_nodup_map hndVote hv hmem (beq_iff_eq.mp hid)
    subst hveq
    simp only [Function.comp_apply, hid, if_true]
    constructor
    · intro _; exact hev_on
    · intro _; exact hopt_on
  · simp only [Function.comp_apply, hid, if_false]
    exact Iff.rfl

/-- The predicate `atMostOneAux` is the pairwise absence of same-user-same-poll conflicts. -/
lemma atMostOneAux_iff_pairwise (opts : List PollOption) (votes : List Vote) :
    atMostOneAux opts votes = true ↔
      List.Pairwise (fun v w => sameUserSamePoll opts v w = false) votes := by
  induction votes with
  | nil => simp [atMostOneAux]
  | cons v vs ih =>
      rw [atMostOneAux, Bool.and_eq_true_iff, List.pairwise_cons, ← ih]
      constructor
      · rintro ⟨h1, h2⟩
        refine ⟨?_, h2⟩
        intro w hw
        have := List.any_eq_false.mp (by simpa using h1) w hw
        simpa using this
      · rintro ⟨h1, h2⟩
        refine ⟨?_, h2⟩
        simp only [Bool.not_eq_true']
        exact List.any_eq_false.mpr (fun w hw => by simp [h1 w hw])

/-- With duplicate-free option ids, an option-membership test pins down the
poll the option id resolves to. -/
lemma pollOfOption_of_any (opts : List PollOption) (x pid : String)
    (hnd : (opts.map (fun o => o.id)).Nodup)
    (h : opts.any (fun o => o.id == x && o.pollId == pid) = true) :
    pollOfOption opts x = some pid := by
  obtain ⟨o, ho, hpred⟩ := List.any_eq_true.mp h
  rcases Bool.and_eq_true_iff.mp hpred with ⟨h1, h2⟩
  have hid : o.id = x := beq_iff_eq.mp h1
  have hpid : o.pollId = pid := beq_iff_eq.mp h2
  unfold pollOfOption
  rcases hf : opts.find? (fun q => q.id == x) with _ | q
  · have := List.find?_eq_none.mp hf o ho
    simp [hid] at this
  · have hq := List.find?_some hf
    have hq_id : q.id = x := beq_iff_eq.mp hq
    have hqo : q = o :=
      List.inj_on_of_nodup_map hnd (List.mem_of_find?_eq_some hf) ho
        (by rw [hq_id, hid])
    subst hqo
    rw [hf, Option.map_some', hpid]

/-- The converse direction: a resolved poll id yields the membership test. -/
lemma any_of_pollOfOption (opts : List PollOption) (x pid : String)
    (h : pollOfOption opts x = some pid) :
    opts.any (fun o => o.id == x && o.pollId == pid) = true := by
  unfold pollOfOption at h
  rcases hf : opts.find? (fun q => q.id == x) with _ | q
  · rw [hf] at h; simp at h
  · rw [hf] at h
    simp only [Option.map_some', Option.some.injEq] at h
    have hq := List.find?_some hf
    refine List.any_eq_true.mpr ⟨q, List.mem_of_find?_eq_some hf, ?_⟩
    rw [Bool.and_eq_true_iff]
    exact ⟨hq, beq_iff_eq.mpr h⟩

/-- Creating a vote for a user with no prior vote on the poll preserves
at-most-one-vote-per-(user, poll). -/
lemma atMostOne_preserved_insert (s : Store)
    (userId pollId optionId freshVoteId : String)
    (hndOpt : (s.options.map (fun o => o.id)).Nodup)
    (hinv : atMostOneVotePerUserPoll s = true)
    (hopt : (matchingOptions s pollId optionId).isEmpty = false)
    (hnone : findVoteOfUserOnPoll s userId pollId = none) :
    atMostOneVotePerUserPoll
      { s with votes := s.votes ++ [Vote.mk freshVoteId userId optionId] } = true := by
  have hpoll_new : pollOfOption s.options optionId = some pollId :=
    pollOfOption_of_any s.options optionId pollId hndOpt
      (any_id_poll_of_matching s pollId optionId hopt)
  have hinv' := (atMostOneAux_iff_pairwise s.options s.votes).mp hinv
  show atMostOneAux s.options _ = true
  rw [atMostOneAux_iff_pairwise, List.pairwise_append]
  refine ⟨hinv', List.pairwise_singleton _ _, ?_⟩
  intro a ha b hb
  have hbv : b = Vote.mk freshVoteId userId optionId := by simpa using hb
  subst hbv
  rw [Bool.eq_false_iff]
  intro hsame
  rcases Bool.and_eq_true_iff.mp hsame with ⟨h12, h3⟩
  rcases Bool.and_eq_true_iff.mp h12 with ⟨h1, _⟩
  have h1' : a.userId = userId := (beq_iff_eq.mp h1).symm
  have hpoll_a : pollOfOption s.options a.pollOptionId = some pollId := by
    have h3' := beq_iff_eq.mp h3
    rw [show (Vote.mk freshVoteId userId optionId).pollOptionId = optionId from rfl,
      hpoll_new] at h3'
    exact h3'.symm
  have hfind := List.find?_eq_none.mp hnone a ha
  apply hfind
  rw [Bool.and_eq_true_iff]
  refine ⟨beq_iff_eq.mpr h1', ?_⟩
  exact any_of_pollOfOption s.options a.pollOptionId pollId hpoll_a

/-- Moving a user's existing vote of a poll to another option of the same
poll preserves at-most-one-vote-per-(user, poll). -/
lemma atMostOne_preserved_move (s : Store)
    (userId pollId optionId : String) (ev : Vote)
    (hndOpt : (s.options.map (fun o => o.id)).Nodup)
    (hndVote : (s.votes.map (fun v => v.id)).Nodup)
    (hinv : atMostOneVotePerUserPoll s = true)
    (hopt : (matchingOptions s pollId optionId).isEmpty = false)
    (hev : findVoteOfUserOnPoll s userId pollId = some ev) :
    atMostOneVotePerUserPoll (moveVote s ev.id optionId) = true := by
  have hmem := List.mem_of_find?_eq_some hev
  have hpred := List.find?_some hev
  have hev_on : s.options.any
      (fun o => o.id == ev.pollOptionId && o.pollId == pollId) = true :=
    (Bool.and_eq_true_iff.mp hpred).2
  have hpoll_ev : pollOfOption s.options ev.pollOptionId = some pollId :=
    pollOfOption_of_any s.options ev.pollOptionId pollId hndOpt hev_on
  have hpoll_new : pollOfOption s.options optionId = some pollId :=
    pollOfOption_of_any s.options optionId pollId hndOpt
      (any_id_poll_of_matching s pollId optionId hopt)
  have hinv' := (atMostOneAux_iff_pairwise s.options s.votes).mp hinv
  have huser : ∀ x : Vote,
      (if x.id == ev.id then { x with pollOptionId := optionId } else x).userId
        = x.userId := by
    intro x
    by_cases h : (x.id == ev.id) = true <;> simp [h]
  have hpollf : ∀ x ∈ s.votes,
      pollOfOption s.options
          (if x.id == ev.id then { x with pollOptionId := optionId } else x).pollOptionId
        = pollOfOption s.options x.pollOptionId := by
    intro x hx
    by_cases h : (x.id == ev.id) = true
    · have hxev : x = ev := List.inj_on_of_nodup_map hndVote hx hmem (beq_iff_eq.mp h)
      subst hxev
      simp only [h, if_true]
      show pollOfOption s.options optionId = _
      rw [hpoll_new, hpoll_ev]
    · simp [h]
  show atMostOneAux s.options _ = true
  rw [show (moveVote s ev.id optionId).votes
      = s.votes.map (fun v =>
          if v.id == ev.id then { v with pollOptionId := optionId } else v) from rfl]
  rw [atMostOneAux_iff_pairwise, List.pairwise_map]
  apply List.Pairwise.imp_of_mem ?_ hinv'
  intro a b ha hb hab
  have hsame_eq : sameUserSamePoll s.options
      (if a.id == ev.id then { a with pollOptionId := optionId } else a)
      (if b.id == ev.id then { b with pollOptionId := optionId } else b)
        = sameUserSamePoll s.options a b := by
    unfold sameUserSamePoll
    rw [hpollf a ha, hpollf b hb, huser a, huser b]
  rw [hsame_eq]
  exact hab

/-- Dissection of a successful sequential `submitVote`: the preconditions
held, and the store changed by exactly one appended row (`created`) or one
in-place move of the user's existing vote (`moved`). -/
lemma submitVote_ok_cases (s : Store) (u pid oid fid : String)
    (s' : Store) (status : VoteStatus)
    (hok : submitVote s u pid oid fid = .ok (s', status)) :
    (findPublishedPoll s pid).isSome = true ∧
    (matchingOptions s pid oid).isEmpty = false ∧
    ((status = .created ∧ s' = { s with votes := s.votes ++ [Vote.mk fid u oid] }) ∨
      (∃ ev, findVoteOfUserOnPoll s u pid = some ev ∧ status = .moved ∧
        s' = moveVote s ev.id oid)) := by
  unfold submitVote readPhase at hok
  rcases hp : findPublishedPoll s pid with _ | p
  · rw [hp] at hok; simp [writePhase] at hok
  · rw [hp] at hok
    by_cases hopt : (matchingOptions s pid oid).isEmpty = true
    · simp [hopt, writePhase] at hok
    · have hopt' : (matchingOptions s pid oid).isEmpty = false :=
        Bool.eq_false_iff.mpr hopt
      refine ⟨rfl, hopt', ?_⟩
      rw [Bool.not_eq_true] at hopt
      simp only [hopt, Bool.false_eq_true, if_false] at hok
      rcases hev : findVoteOfUserOnPoll s u pid with _ | ev
      · rw [hev] at hok
        simp only [writePhase, insertVote] at hok
        by_cases hdup : (s.votes.any
            (fun w => w.userId == u && w.pollOptionId == oid)) = true
        · simp [hdup] at hok
        · rw [Bool.not_eq_true] at hdup
          simp only [hdup, Bool.false_eq_true, if_false] at hok
          left
          have h := Except.ok.inj hok
          exact ⟨(congrArg Prod.snd h).symm, (congrArg Prod.fst h).symm⟩
      · rw [hev] at hok
        by_cases hsame : (ev.pollOptionId == oid) = true
        · simp [hsame, writePhase] at hok
        · rw [Bool.not_eq_true] at hsame
          have hexists : (s.votes.any (fun v => v.id == ev.id)) = true :=
            List.any_eq_true.mpr ⟨ev, List.mem_of_find?_eq_some hev, by simp⟩
          simp only [hsame, Bool.false_eq_true, if_false, writePhase,
            updateVoteOption, hexists, if_true] at hok
          right
          have h := Except.ok.inj hok
          exact ⟨ev, rfl, (congrArg Prod.snd h).symm, (congrArg Prod.fst h).symm⟩

/-- A successful `submitVote` touches only the vote table. -/
lemma submitVote_ok_tables (s : Store) (u pid oid fid : String)
    (s' : Store) (status : VoteStatus)
    (hok : submitVote s u pid oid fid = .ok (s', status)) :
    s'.polls = s.polls ∧ s'.options = s.options := by
  obtain ⟨-, -, hcase⟩ := submitVote_ok_cases s u pid oid fid s' status hok
  rcases hcase with ⟨-, rfl⟩ | ⟨ev, -, -, rfl⟩
  · exact ⟨rfl, rfl⟩
  · exact ⟨rfl, rfl⟩

/-- A successful `submitVote` never decreases the poll's true vote count:
`created` appends one matching row, `moved` keeps the moved row on the poll. -/
lemma votesOnPoll_mono_submit (s : Store) (u pid oid fid : String)
    (s' : Store) (status : VoteStatus)
    (hok : submitVote s u pid oid fid = .ok (s', status)) :
    (votesOnPoll s pid).length ≤ (votesOnPoll s' pid).length := by
  obtain ⟨-, hopt, hcase⟩ := submitVote_ok_cases s u pid oid fid s' status hok
  have hoid := any_id_poll_of_matching s pid oid hopt
  rcases hcase with ⟨-, rfl⟩ | ⟨ev, hev, -, rfl⟩
  · simp only [votesOnPoll, ← List.countP_eq_length_filter, List.countP_append]
    exact Nat.le_add_right _ _
  · simp only [votesOnPoll, moveVote, ← List.countP_eq_length_filter, List.countP_map]
    apply List.countP_mono_left
    intro v hv hpred
    by_cases hid : (v.id == ev.id) = true
    · simp only [Function.comp_apply, hid, if_true]
      exact hoid
    · simp only [Function.comp_apply, hid, Bool.false_eq_true, if_false]
      exact hpred

/-- A state-changing `submitVoteFull` call appends exactly one `poll-updated`
broadcast to the poll's room, carrying the snapshot recomputed from the
post-write store. -/
lemma submitVoteFull_ok_emission (st : SysState) (u pid oid fid : String)
    (st' : SysState) (status : VoteStatus)
    (h : submitVoteFull st u pid oid fid none = (st', .ok status)) :
    ∃ p, st'.store.polls.find? (fun q => q.id == pid) = some p ∧
      p.id = pid ∧
      st'.emitted = st.emitted ++
        [Emission.mk (.toRoom (roomName pid)) (.pollUpdated (pollSnapshot st'.store p))] ∧
      submitVote st.store u pid oid fid = .ok (st'.store, status) := by
  unfold submitVoteFull at h
  rcases hsv : submitVote st.store u pid oid fid with e | sp
  · rw [hsv] at h
    have h2 : (Except.error e : Except SubmitError VoteStatus) = .ok status :=
      congrArg Prod.snd h
    exact absurd h2 (by simp)
  · rcases sp with ⟨s', status'⟩
    rw [hsv] at h
    have h1 : SysState.mk s' (st.emitted ++ broadcastVoteUpdate s' pid none) = st' :=
      congrArg Prod.fst h
    have h2 : (Except.ok status' : Except SubmitError VoteStatus) = .ok status :=
      congrArg Prod.snd h
    have hst : status' = status := Except.ok.inj h2
    obtain ⟨hp_some, -, -⟩ := submitVote_ok_cases _ _ _ _ _ _ _ hsv
    obtain ⟨hpolls, -⟩ := submitVote_ok_tables _ _ _ _ _ _ _ hsv
    obtain ⟨p0, hp0mem, hp0⟩ := List.find?_isSome.mp hp_some
    rcases hf : s'.polls.find? (fun q => q.id == pid) with _ | p
    · exfalso
      have hnone := List.find?_eq_none.mp hf p0 (by rw [hpolls]; exact hp0mem)
      exact hnone (Bool.and_eq_true_iff.mp hp0).1
    · have hfq := List.find?_some hf
      have hpid : p.id = pid := beq_iff_eq.mp hfq
      have hemitted : st'.emitted = st.emitted ++ broadcastVoteUpdate s' pid none := by
        rw [← h1]
      have hbroadcast : broadcastVoteUpdate s' pid none
          = [Emission.mk (.toRoom (roomName pid)) (.pollUpdated (pollSnapshot s' p))] := by
        unfold broadcastVoteUpdate broadcastVoteUpdateBody
        rw [hf]
      have hstore : st'.store = s' := by rw [← h1]
      refine ⟨p, by rw [hstore]; exact hf, hpid, ?_, ?_⟩
      · rw [hemitted, hbroadcast, hstore]
      · rw [hstore, hst]

/-- An unsuccessful `submitVoteFull` call leaves the whole system state as it
was. -/
lemma submitVoteFull_error_id (st : SysState) (u pid oid fid : String)
    (st' : SysState) (e : SubmitError)
    (h : submitVoteFull st u pid oid fid none = (st', .error e)) :
    st' = st := by
  unfold submitVoteFull at h
  rcases hsv : submitVote st.store u pid oid fid with e' | sp
  · rw [hsv] at h
    have h1 : st = st' := congrArg Prod.fst h
    exact h1.symm
  · rcases sp with ⟨s', status'⟩
    rw [hsv] at h
    have h2 : (Except.ok status' : Except SubmitError VoteStatus) = .error e :=
      congrArg Prod.snd h
    exact absurd h2 (by simp)

/-- The totals map `updateTotalsFor` distributes over appended emission logs. -/
lemma updateTotalsFor_append (pid : String) (es fs : List Emission) :
    updateTotalsFor pid (es ++ fs)
      = updateTotalsFor pid es ++ updateTotalsFor pid fs := by
  simp [updateTotalsFor]

/-- One `poll-updated` emission to the poll's own room contributes exactly
its total. -/
lemma updateTotalsFor_single (pid : String) (d : PollData) :
    updateTotalsFor pid
        [Emission.mk (.toRoom (roomName pid)) (.pollUpdated d)]
      = [d.totalVotes] := by
  simp [updateTotalsFor]

/-- The invariant-carrying induction behind the C6 monotonicity claim: if the
totals broadcast so far are non-decreasing and bounded by the poll's current
true count, any further sequence of vote requests keeps the whole broadcast
total sequence non-decreasing. -/
lemma runVotes_chain (pid : String) (reqs : List VoteReq) (st : SysState)
    (hndOpt : (st.store.options.map (fun o => o.id)).Nodup)
    (hchain : List.Chain' (· ≤ ·) (updateTotalsFor pid st.emitted))
    (hlast : ∀ t ∈ (updateTotalsFor pid st.emitted).getLast?,
      t ≤ (votesOnPoll st.store pid).length) :
    List.Chain' (· ≤ ·) (updateTotalsFor pid (runVotes pid st reqs).emitted) := by
  induction reqs generalizing st with
  | nil => exact hchain
  | cons r rs ih =>
      rw [runVotes]
      rcases hcall : submitVoteFull st r.userId pid r.optionId r.freshVoteId none
        with ⟨st₁, res⟩
      rcases res with e | status
      · have hid : st₁ = st :=
          submitVoteFull_error_id st r.userId pid r.optionId r.freshVoteId st₁ e hcall
        subst hid
        exact ih st₁ hndOpt hchain hlast
      · obtain ⟨p, hf, hpid, hemit, hsv⟩ :=
          submitVoteFull_ok_emission st r.userId pid r.optionId r.freshVoteId
            st₁ status hcall
        obtain ⟨hpolls, hopts⟩ := submitVote_ok_tables _ _ _ _ _ _ _ hsv
        have hmono := votesOnPoll_mono_submit _ _ _ _ _ _ _ hsv
        have hndOpt₁ : (st₁.store.options.map (fun o => o.id)).Nodup := by
          rw [hopts]; exact hndOpt
        have htot : (pollSnapshot st₁.store p).totalVotes
            = (votesOnPoll st₁.store pid).length := by
          rw [pollSnapshot_totalVotes _ _ hndOpt₁, hpid]
        have htotals : updateTotalsFor pid st₁.emitted
            = updateTotalsFor pid st.emitted
              ++ [(pollSnapshot st₁.store p).totalVotes] := by
          rw [hemit, updateTotalsFor_append, updateTotalsFor_single]
        apply ih st₁ hndOpt₁
        · rw [htotals, List.chain'_append]
          refine ⟨hchain, List.chain'_singleton _, ?_⟩
          intro x hx y hy
          have hy' : y = (pollSnapshot st₁.store p).totalVotes := by
            have h := hy
            simp at h
            exact h.symm
          subst hy'
          calc x ≤ (votesOnPoll st.store pid).length := hlast x hx
            _ ≤ (votesOnPoll st₁.store pid).length := hmono
            _ = (pollSnapshot st₁.store p).totalVotes := htot.symm
        · intro t ht
          rw [htotals, List.getLast?_concat] at ht
          have ht' : t = (pollSnapshot st₁.store p).totalVotes := by
            have h := ht
            simp at h
            exact h.symm
          rw [ht', htot]

/-! ## C1 — storage-layer uniqueness -/

/-- C1 counterexample.  The migration's unique index
`votes_user_id_poll_option_id_key` is on `(user_id, poll_option_id)`, not on
(user, poll) scoped through the option's poll: a table holding two votes by
the same user on two different options of one poll satisfies the index while
violating at-most-one-vote-per-(user, poll), so the storage layer does not
enforce the (user, poll) uniqueness the claim asserts. -/
theorem C1_storage_unique_counterexample :
    votesUniqueIndexOk dualVoteStore.votes = true ∧
    atMostOneVotePerUserPoll dualVoteStore = false := by decide

/-- C1 amended: at most one vote per (user, poll) is preserved by every
sequential `submitVote` call — that is, the invariant is maintained by the
application logic (the existing-vote check), the storage index being only
per (user, option). -/
theorem C1_per_user_poll_invariant_amended (s : Store)
    (userId pollId optionId freshVoteId : String) (s' : Store) (status : VoteStatus)
    (hndOpt : (s.options.map (fun o => o.id)).Nodup)
    (hndVote : (s.votes.map (fun v => v.id)).Nodup)
    (hinv : atMostOneVotePerUserPoll s = true)
    (hok : submitVote s userId pollId optionId freshVoteId = .ok (s', status)) :
    atMostOneVotePerUserPoll s' = true := by
  unfold submitVote readPhase at hok
  rcases hp : findPublishedPoll s pollId with _ | p
  · rw [hp] at hok; simp [writePhase] at hok
  · rw [hp] at hok
    by_cases hopt : (matchingOptions s pollId optionId).isEmpty = true
    · simp [hopt, writePhase] at hok
    · have hopt' : (matchingOptions s pollId optionId).isEmpty = false :=
        Bool.not_eq_true _ ▸ Bool.eq_false_iff.mpr hopt
      rw [Bool.not_eq_true] at hopt
      simp only [hopt, Bool.false_eq_true, if_false] at hok
      rcases hev : findVoteOfUserOnPoll s userId pollId with _ | ev
      · rw [hev] at hok
        simp only [writePhase, insertVote] at hok
        by_cases hdup : (s.votes.any
            (fun w => w.userId == userId && w.pollOptionId == optionId)) = true
        · simp [hdup] at hok
        · rw [Bool.not_eq_true] at hdup
          simp only [hdup, Bool.false_eq_true, if_false] at hok
          obtain ⟨hs, _⟩ : { s with votes :=
              s.votes ++ [Vote.mk freshVoteId userId optionId] } = s'
                ∧ VoteStatus.created = status := by
            constructor <;> [exact congrArg Prod.fst (Except.ok.inj hok);
              exact congrArg Prod.snd (Except.ok.inj hok)]
          rw [← hs]
          exact atMostOne_preserved_insert s userId pollId optionId freshVoteId
            hndOpt hinv hopt' hev
      · rw [hev] at hok
        by_cases hsame : (ev.pollOptionId == optionId) = true
        · simp [hsame, writePhase] at hok
        · rw [Bool.not_eq_true] at hsame
          have hexists : (s.votes.any (fun v => v.id == ev.id)) = true :=
            List.any_eq_true.mpr ⟨ev, List.mem_of_find?_eq_some hev, by simp⟩
          simp only [hsame, Bool.false_eq_true, if_false, writePhase,
            updateVoteOption, hexists, if_true] at hok
          obtain ⟨hs, _⟩ : moveVote s ev.id optionId = s'
              ∧ VoteStatus.moved = status := by
            constructor <;> [exact congrArg Prod.fst (Except.ok.inj hok);
              exact congrArg Prod.snd (Except.ok.inj hok)]
          rw [← hs]
          exact atMostOne_preserved_move s userId pollId optionId ev
            hndOpt hndVote hinv hopt' hev

/-- Witness for `C1_per_user_poll_invariant_amended`: `u1` casts the first
vote on the empty store, producing `votedStore`, which still satisfies the
invariant. -/
theorem C1_per_user_poll_invariant_amended_witness :
    (sampleStore.options.map (fun o => o.id)).Nodup ∧
    (sampleStore.votes.map (fun v => v.id)).Nodup ∧
    atMostOneVotePerUserPoll sampleStore = true ∧
    submitVote sampleStore "u1" "p1" "o1" "v1" = .ok (votedStore, .created) ∧
    atMostOneVotePerUserPoll votedStore = true :=
  ⟨by decide, by decide, by decide, by decide,
    C1_per_user_poll_invariant_amended sampleStore "u1" "p1" "o1" "v1"
      votedStore .created (by decide) (by decide) (by decide) (by decide)⟩

/-! ## C2 — atomicity of the three vote branches -/

/-- C2 counterexample.  `submitVote` runs its existing-vote check and its
write as two separate store operations with no transaction: in the
interleaving where both of `u1`'s concurrent requests (for options `o1` and
`o2`) run their read phase against the same pre-state before either write,
both read phases decide `create`, both inserts are accepted by the unique
index, and the final store holds two vote rows for (`u1`, `p1`). -/
theorem C2_atomicity_counterexample :
    readPhase sampleStore "u1" "p1" "o1" = .create ∧
    readPhase sampleStore "u1" "p1" "o2" = .create ∧
    writePhase sampleStore "u1" "o1" "va" .create = .ok (raceStoreAfterA, .created) ∧
    writePhase raceStoreAfterA "u1" "o2" "vb" .create = .ok (raceStoreFinal, .created) ∧
    votesUniqueIndexOk raceStoreFinal.votes = true ∧
    atMostOneVotePerUserPoll raceStoreFinal = false := by decide

/-- C2 amended: the three branches are two separate store operations (read,
then write), so two concurrent same-user requests that both read before
either writes can both create a row when they target different options; the
unique index blocks the race only when both target the same option, in which
case the second insert fails with `P2002` (unique-constraint violation). -/
theorem C2_same_option_race_blocked_amended (s s1 : Store)
    (userId pollId optionId freshA freshB : String) (stA : VoteStatus)
    (hread : readPhase s userId pollId optionId = .create)
    (hA : writePhase s userId optionId freshA (readPhase s userId pollId optionId)
      = .ok (s1, stA)) :
    writePhase s1 userId optionId freshB .create = .error (.db .uniqueViolation) := by
  rw [hread] at hA
  simp only [writePhase] at hA
  rcases hi : insertVote s (Vote.mk freshA userId optionId) with e | s'
  · rw [hi] at hA; exact absurd hA (by simp)
  · rw [hi] at hA
    have hs1 : s' = s1 := by
      have h := congrArg (fun r => match r with
        | Except.ok (q, _) => q
        | Except.error _ => s') hA
      simpa using h
    unfold insertVote at hi
    by_cases hany :
        (s.votes.any (fun w => w.userId == userId && w.pollOptionId == optionId)) = true
    · rw [if_pos hany] at hi; exact absurd hi (by simp)
    · rw [if_neg (by simpa using hany)] at hi
      have hv : s1.votes = s.votes ++ [Vote.mk freshA userId optionId] := by
        rw [← hs1]
        have := congrArg Store.votes (Except.ok.inj hi)
        simpa using this.symm
      have hmatch :
          (s1.votes.any fun w => w.userId == userId && w.pollOptionId == optionId) = true := by
        rw [hv]; simp
      simp [writePhase, insertVote, hmatch]

/-- Witness for `C2_same_option_race_blocked_amended`: both requests target
option `o1`; after A's insert, B's insert hits the unique index. -/
theorem C2_same_option_race_blocked_amended_witness :
    readPhase sampleStore "u1" "p1" "o1" = .create ∧
    writePhase sampleStore "u1" "o1" "va" (readPhase sampleStore "u1" "p1" "o1")
      = .ok (raceStoreAfterA, .created) ∧
    writePhase raceStoreAfterA "u1" "o1" "vb" .create
      = .error (.db .uniqueViolation) :=
  ⟨by decide, by decide,
    C2_same_option_race_blocked_amended sampleStore raceStoreAfterA
      "u1" "p1" "o1" "va" "vb" .created (by decide) (by decide)⟩

/-! ## C3 — revote on a different option moves the vote in place -/

/-- C3: when the user already holds a vote on the poll and casts for a
different option of that poll, `submitVote` succeeds with status `moved`,
updating the existing row in place: the vote table keeps its length, the
existing row now points at the new option, and the poll's `totalVotes` is
unchanged by the revote. -/
theorem C3_revote_moves_in_place (s : Store)
    (userId pollId optionId freshVoteId : String) (p : Poll) (ev : Vote)
    (hndOpt : (s.options.map (fun o => o.id)).Nodup)
    (hndVote : (s.votes.map (fun v => v.id)).Nodup)
    (hp : findPublishedPoll s pollId = some p)
    (hopt : (matchingOptions s pollId optionId).isEmpty = false)
    (hev : findVoteOfUserOnPoll s userId pollId = some ev)
    (hdiff : ev.pollOptionId ≠ optionId) :
    submitVote s userId pollId optionId freshVoteId
        = .ok (moveVote s ev.id optionId, .moved) ∧
    (moveVote s ev.id optionId).votes.length = s.votes.length ∧
    (∀ v ∈ (moveVote s ev.id optionId).votes, v.id = ev.id → v.pollOptionId = optionId) ∧
    (pollSnapshot (moveVote s ev.id optionId) p).totalVotes
      = (pollSnapshot s p).totalVotes := by
  have hmem := List.mem_of_find?_eq_some hev
  have hpred := List.find?_some hev
  have hev_on : s.options.any
      (fun o => o.id == ev.pollOptionId && o.pollId == pollId) = true :=
    (Bool.and_eq_true_iff.mp hpred).2
  have hopt_on := any_id_poll_of_matching s pollId optionId hopt
  have hdiffb : (ev.pollOptionId == optionId) = false := by
    rw [Bool.eq_false_iff]
    intro hc; exact hdiff (beq_iff_eq.mp hc)
  have hany : (s.votes.any (fun v => v.id == ev.id)) = true :=
    List.any_eq_true.mpr ⟨ev, hmem, by simp⟩
  refine ⟨?_, ?_, ?_, ?_⟩
  · simp [submitVote, readPhase, writePhase, updateVoteOption, hp, hopt, hev, hdiffb, hany]
  · simp [moveVote]
  · intro v hv hid
    simp only [moveVote, List.mem_map] at hv
    obtain ⟨w, hw, rfl⟩ := hv
    by_cases hwid : (w.id == ev.id) = true
    · simp [hwid]
    · simp only [hwid, Bool.false_eq_true, if_false] at hid ⊢
      exact absurd (beq_iff_eq.mpr hid) hwid
  · rw [pollSnapshot_totalVotes _ p (by simpa [moveVote] using hndOpt),
      pollSnapshot_totalVotes s p hndOpt]
    have hpid : p.id = pollId := by
      have hfp := List.find?_some hp
      exact beq_iff_eq.mp (Bool.and_eq_true_iff.mp hfp).1
    rw [hpid]
    exact votesOnPoll_moveVote s pollId optionId ev hndVote hmem hev_on hopt_on

/-- Witness for `C3_revote_moves_in_place`: `u1`, having voted `o1`, revotes
`o2` on the same poll. -/
theorem C3_revote_moves_in_place_witness :
    (votedStore.options.map (fun o => o.id)).Nodup ∧
    (votedStore.votes.map (fun v => v.id)).Nodup ∧
    findPublishedPoll votedStore "p1" = some samplePoll ∧
    (matchingOptions votedStore "p1" "o2").isEmpty = false ∧
    findVoteOfUserOnPoll votedStore "u1" "p1" = some (Vote.mk "v1" "u1" "o1") ∧
    (Vote.mk "v1" "u1" "o1").pollOptionId ≠ "o2" ∧
    (submitVote votedStore "u1" "p1" "o2" "v9"
        = .ok (moveVote votedStore "v1" "o2", .moved) ∧
      (moveVote votedStore "v1" "o2").votes.length = votedStore.votes.length ∧
      (∀ v ∈ (moveVote votedStore "v1" "o2").votes,
        v.id = "v1" → v.pollOptionId = "o2") ∧
      (pollSnapshot (moveVote votedStore "v1" "o2") samplePoll).totalVotes
        = (pollSnapshot votedStore samplePoll).totalVotes) :=
  ⟨by decide, by decide, by decide, by decide, by decide, by decide,
    C3_revote_moves_in_place votedStore "u1" "p1" "o2" "v9" samplePoll
      (Vote.mk "v1" "u1" "o1") (by decide) (by decide) (by decide) (by decide)
      (by decide) (by decide)⟩

/-! ## C4 — duplicate vote is a conflict, not a crash, and changes nothing -/

/-- C4: when the user's existing vote on the poll already points at the
requested option, `submitVote` fails with the 409 duplicate-vote error, the
store is unchanged, and nothing is broadcast. -/
theorem C4_duplicate_vote_conflict (st : SysState)
    (userId pollId optionId freshVoteId : String) (ev : Vote)
    (emitFailure : Option String)
    (hpoll : (findPublishedPoll st.store pollId).isSome)
    (hopt : (matchingOptions st.store pollId optionId).isEmpty = false)
    (hev : findVoteOfUserOnPoll st.store userId pollId = some ev)
    (hsame : ev.pollOptionId = optionId) :
    submitVoteFull st userId pollId optionId freshVoteId emitFailure
      = (st, .error (.app .alreadyVotedForOption)) := by
  obtain ⟨p, hp⟩ := Option.isSome_iff_exists.mp hpoll
  have hbeq : (ev.pollOptionId == optionId) = true := by rw [beq_iff_eq]; exact hsame
  simp [submitVoteFull, submitVote, readPhase, writePhase, hp, hopt, hev, hbeq]

/-- Witness for `C4_duplicate_vote_conflict`: `u1` already voted `o1` and
votes `o1` again. -/
theorem C4_duplicate_vote_conflict_witness :
    (findPublishedPoll votedStore "p1").isSome = true ∧
    (matchingOptions votedStore "p1" "o1").isEmpty = false ∧
    findVoteOfUserOnPoll votedStore "u1" "p1" = some (Vote.mk "v1" "u1" "o1") ∧
    (Vote.mk "v1" "u1" "o1").pollOptionId = "o1" ∧
    submitVoteFull (SysState.mk votedStore []) "u1" "p1" "o1" "v9" none
      = (SysState.mk votedStore [], .error (.app .alreadyVotedForOption)) :=
  ⟨by decide, by decide, by decide, rfl,
    C4_duplicate_vote_conflict (SysState.mk votedStore []) "u1" "p1" "o1" "v9"
      (Vote.mk "v1" "u1" "o1") none (by decide) (by decide) (by decide) rfl⟩

/-! ## C5 — precondition violations fail with no mutation, no broadcast -/

/-- C5: when the poll is missing or unpublished, or the requested option does
not belong to the poll, `submitVote` fails with the 404
poll-not-found-or-not-published error or the 400 invalid-option error, and
the store and the emission log are unchanged. -/
theorem C5_precondition_failure (st : SysState)
    (userId pollId optionId freshVoteId : String) (emitFailure : Option String)
    (hbad : findPublishedPoll st.store pollId = none ∨
      (matchingOptions st.store pollId optionId).isEmpty = true) :
    submitVoteFull st userId pollId optionId freshVoteId emitFailure
        = (st, .error (.app .pollNotFoundOrNotPublished)) ∨
      submitVoteFull st userId pollId optionId freshVoteId emitFailure
        = (st, .error (.app .invalidPollOption)) := by
  rcases hbad with h | h
  · left; simp [submitVoteFull, submitVote, readPhase, writePhase, h]
  · rcases hp : findPublishedPoll st.store pollId with _ | p
    · left; simp [submitVoteFull, submitVote, readPhase, writePhase, hp]
    · right; simp [submitVoteFull, submitVote, readPhase, writePhase, hp, h]

/-- Witness for `C5_precondition_failure`: voting on the existing but
unpublished `draftPoll` changes nothing and yields the 404 error (the code
folds `NotFound` and `NotPublished` into one message). -/
theorem C5_precondition_failure_witness :
    (findPublishedPoll draftStore "p2" = none ∨
      (matchingOptions draftStore "p2" "o3").isEmpty = true) ∧
    (submitVoteFull (SysState.mk draftStore []) "u1" "p2" "o3" "v9" none
        = (SysState.mk draftStore [], .error (.app .pollNotFoundOrNotPublished)) ∨
      submitVoteFull (SysState.mk draftStore []) "u1" "p2" "o3" "v9" none
        = (SysState.mk draftStore [], .error (.app .invalidPollOption))) :=
  ⟨Or.inl (by decide),
    C5_precondition_failure (SysState.mk draftStore []) "u1" "p2" "o3" "v9" none
      (Or.inl (by decide))⟩

/-! ## C6 — one fresh broadcast per state change, monotone tallies -/

/-- C6: every state-changing `submitVote` call (`created` or `moved`) appends
exactly one `poll-updated` broadcast for that poll, whose snapshot is
recomputed from the store as it stands after the write; and across any
sequence of vote requests on the poll, the totals of the broadcasts a session
in that room observes form a monotonically non-decreasing sequence. -/
theorem C6_broadcast_fresh_and_monotonic (st : SysState) (pid : String)
    (reqs : List VoteReq)
    (hndOpt : (st.store.options.map (fun o => o.id)).Nodup)
    (hstart : st.emitted = []) :
    (∀ u oid fid st' status,
      submitVoteFull st u pid oid fid none = (st', .ok status) →
      ∃ p, st'.store.polls.find? (fun q => q.id == pid) = some p ∧
        st'.emitted = st.emitted ++
          [Emission.mk (.toRoom (roomName pid))
            (.pollUpdated (pollSnapshot st'.store p))]) ∧
    List.Chain' (· ≤ ·) (updateTotalsFor pid (runVotes pid st reqs).emitted) := by
  constructor
  · intro u oid fid st' status h
    obtain ⟨p, hf, -, hemit, -⟩ :=
      submitVoteFull_ok_emission st u pid oid fid st' status h
    exact ⟨p, hf, hemit⟩
  · apply runVotes_chain pid reqs st hndOpt
    · rw [hstart]
      exact List.chain'_nil
    · rw [hstart]
      intro t ht
      simp [updateTotalsFor] at ht

/-- Witness for `C6_broadcast_fresh_and_monotonic`: the spec's scenario on
the two-option poll; the observed totals are `[1, 2, 2]`, non-decreasing and
unchanged by the revote. -/
theorem C6_broadcast_fresh_and_monotonic_witness :
    ((SysState.mk sampleStore []).store.options.map (fun o => o.id)).Nodup ∧
    (SysState.mk sampleStore []).emitted = [] ∧
    updateTotalsFor "p1"
        (runVotes "p1" (SysState.mk sampleStore []) scenarioReqs).emitted
      = [1, 2, 2] ∧
    ((∀ u oid fid st' status,
      submitVoteFull (SysState.mk sampleStore []) u "p1" oid fid none
          = (st', .ok status) →
      ∃ p, st'.store.polls.find? (fun q => q.id == "p1") = some p ∧
        st'.emitted = (SysState.mk sampleStore []).emitted ++
          [Emission.mk (.toRoom (roomName "p1"))
            (.pollUpdated (pollSnapshot st'.store p))]) ∧
    List.Chain' (· ≤ ·) (updateTotalsFor "p1"
      (runVotes "p1" (SysState.mk sampleStore []) scenarioReqs).emitted)) :=
  ⟨by decide, rfl, by decide,
    C6_broadcast_fresh_and_monotonic (SysState.mk sampleStore []) "p1"
      scenarioReqs (by decide) rfl⟩

/-! ## C7 — result snapshot: counts, total and percentages -/

/-- C7: the computed result snapshot has per-option counts summing to the
poll's true number of votes, each percentage equal to count/total×100
rounded to one decimal when the total is positive, and percentage 0 when the
total is 0. -/
theorem C7_results_counts_percentages (s : Store) (pollId : String)
    (p : Poll) (r : PollResults)
    (hndOpt : (s.options.map (fun o => o.id)).Nodup)
    (hp : s.polls.find? (fun q => q.id == pollId) = some p)
    (hr : getPollResults s pollId = some r) :
    r.totalVotes = (votesOnPoll s pollId).length ∧
    (r.options.map (fun o => o.voteCount)).sum = r.totalVotes ∧
    (∀ o ∈ r.options, o.percentage = specPercentage o.voteCount r.totalVotes) ∧
    (r.totalVotes = 0 → ∀ o ∈ r.options, o.percentage = 0) := by
  have hfp := List.find?_some hp
  have hpid : p.id = pollId := beq_iff_eq.mp hfp
  rw [getPollResults, hp, Option.map_some'] at hr
  have hr' := (Option.some.inj hr).symm
  subst hr'
  refine ⟨?_, ?_, ?_, ?_⟩
  · show ((optionsOfPoll s p.id).map (fun o => (votesOnOption s o.id).length)).sum = _
    rw [hpid]
    exact sum_option_counts s pollId hndOpt
  · simp [List.map_map, Function.comp_def]
  · intro o ho
    simp only [List.mem_map] at ho
    obtain ⟨o0, _, rfl⟩ := ho
    by_cases h : ((optionsOfPoll s p.id).map
        (fun o => (votesOnOption s o.id).length)).sum = 0
    · simp [specPercentage, h]
    · have hpos := Nat.pos_of_ne_zero h
      simp only [specPercentage, h, if_false, hpos, if_true, toFixed1]
  · intro h0 o ho
    simp only [List.mem_map] at ho
    obtain ⟨o0, _, rfl⟩ := ho
    have hz : ((optionsOfPoll s p.id).map
        (fun o => (votesOnOption s o.id).length)).sum = 0 := h0
    simp [hz]

/-- Witness for `C7_results_counts_percentages`: `votedStore` holds one vote
for `o1`; the computed results give 1/0 counts and 100/0 percentages. -/
theorem C7_results_counts_percentages_witness :
    (votedStore.options.map (fun o => o.id)).Nodup ∧
    votedStore.polls.find? (fun q => q.id == "p1") = some samplePoll ∧
    getPollResults votedStore "p1" = some votedResults ∧
    (votedResults.totalVotes = (votesOnPoll votedStore "p1").length ∧
      (votedResults.options.map (fun o => o.voteCount)).sum = votedResults.totalVotes ∧
      (∀ o ∈ votedResults.options,
        o.percentage = specPercentage o.voteCount votedResults.totalVotes) ∧
      (votedResults.totalVotes = 0 → ∀ o ∈ votedResults.options, o.percentage = 0)) :=
  ⟨by decide, by decide,
    by
      simp [getPollResults, votedStore, votedResults, samplePoll, sampleOptions,
        optionsOfPoll, votesOnOption, toFixed1]
      norm_num,
    C7_results_counts_percentages votedStore "p1" samplePoll votedResults
      (by decide) (by decide)
      (by
        simp [getPollResults, votedStore, votedResults, samplePoll, sampleOptions,
          optionsOfPoll, votesOnOption, toFixed1]
        norm_num)⟩

/-! ## C8 — room join gated by publication, fresh snapshot on join -/

/-- C8: joining a poll room fails (error emitted, membership unchanged) when
the poll is missing or unpublished, and on success the session is added to
the poll's room and immediately receives one snapshot whose `totalVotes` is
the ledger's true count of votes on the poll at join time. -/
theorem C8_join_room (s : Store) (rooms : List (String × String))
    (sessionId pollId : String)
    (hndOpt : (s.options.map (fun o => o.id)).Nodup) :
    (pollId ≠ "" → findPublishedPoll s pollId = none →
      joinPoll s rooms sessionId pollId
        = (rooms,
           [Emission.mk (.toSession sessionId)
             (.errorMsg "Poll not found or not published")])) ∧
    (∀ p, pollId ≠ "" → findPublishedPoll s pollId = some p →
      joinPoll s rooms sessionId pollId
          = (rooms ++ [(roomName pollId, sessionId)],
             [Emission.mk (.toSession sessionId) (.pollData (pollSnapshot s p)),
              Emission.mk (.toRoomExceptSelf (roomName pollId) sessionId)
                (.userJoinedPoll ((rooms ++ [(roomName pollId, sessionId)]).filter
                  (fun m => m.fst == roomName pollId)).length)]) ∧
      (pollSnapshot s p).totalVotes = (votesOnPoll s pollId).length) := by
  constructor
  · intro hne hnone
    have hb : (pollId == "") = false := by
      rw [Bool.eq_false_iff]; intro hc; exact hne (beq_iff_eq.mp hc)
    simp [joinPoll, hb, hnone]
  · intro p hne hfound
    have hb : (pollId == "") = false := by
      rw [Bool.eq_false_iff]; intro hc; exact hne (beq_iff_eq.mp hc)
    have hfound' : s.polls.find? (fun q => q.id == pollId && q.isPublished) = some p :=
      hfound
    have hfp := List.find?_some hfound'
    have hpid : p.id = pollId := beq_iff_eq.mp (Bool.and_eq_true_iff.mp hfp).1
    constructor
    · simp [joinPoll, hb, hfound]
    · rw [pollSnapshot_totalVotes s p hndOpt, hpid]

/-- Witness for `C8_join_room`: a session joins `p1` on `votedStore` and the
snapshot it receives reports the single existing vote. -/
theorem C8_join_room_witness :
    (votedStore.options.map (fun o => o.id)).Nodup ∧
    (("p1" : String) ≠ "" → findPublishedPoll votedStore "p1" = none →
      joinPoll votedStore [] "sess1" "p1"
        = ([], [Emission.mk (.toSession "sess1")
            (.errorMsg "Poll not found or not published")])) ∧
    (∀ p, ("p1" : String) ≠ "" → findPublishedPoll votedStore "p1" = some p →
      joinPoll votedStore [] "sess1" "p1"
          = (([] : List (String × String)) ++ [(roomName "p1", "sess1")],
             [Emission.mk (.toSession "sess1") (.pollData (pollSnapshot votedStore p)),
              Emission.mk (.toRoomExceptSelf (roomName "p1") "sess1")
                (.userJoinedPoll ((([] : List (String × String))
                    ++ [(roomName "p1", "sess1")]).filter
                  (fun m => m.fst == roomName "p1")).length)]) ∧
      (pollSnapshot votedStore p).totalVotes = (votesOnPoll votedStore "p1").length) :=
  ⟨by decide,
    (C8_join_room votedStore [] "sess1" "p1" (by decide)).1,
    (C8_join_room votedStore [] "sess1" "p1" (by decide)).2⟩

/-! ## C9 — publication monotonicity -/

/-- C9 counterexample.  `updatePollSchema` accepts `isPublished: false` and
`PollController.updatePoll` applies any present boolean, so one `updatePoll`
call transitions a published poll back to unpublished: publication is not
monotonic. -/
theorem C9_monotonic_publication_counterexample :
    samplePoll.isPublished = true ∧
    (updatePollApply (UpdatePollInput.mk none (some false)) samplePoll).isPublished
      = false := by decide

/-- C9 amended: publication only fails to be monotonic through `updatePoll`
with an explicit `isPublished: false`.  `publishPoll` always leaves the flag
set, and an `updatePoll` whose body does not carry `isPublished: false`
never clears it. -/
theorem C9_publication_monotonic_amended (p : Poll) (inp : UpdatePollInput)
    (hpub : p.isPublished = true) (hinp : inp.isPublished ≠ some false) :
    (updatePollApply inp p).isPublished = true ∧
    (publishPollApply p).isPublished = true := by
  constructor
  · simp only [updatePollApply]
    match hi : inp.isPublished with
    | none => simpa [Option.getD] using hpub
    | some true => simp [Option.getD]
    | some false => exact absurd hi hinp
  · rfl

/-- Witness for `C9_publication_monotonic_amended` at a concrete poll and a
concrete update body. -/
theorem C9_publication_monotonic_amended_witness :
    samplePoll.isPublished = true ∧
    (UpdatePollInput.mk (some "New question?") none).isPublished ≠ some false ∧
    ((updatePollApply (UpdatePollInput.mk (some "New question?") none) samplePoll).isPublished
        = true ∧
      (publishPollApply samplePoll).isPublished = true) :=
  ⟨by decide, by decide,
    C9_publication_monotonic_amended samplePoll
      (UpdatePollInput.mk (some "New question?") none) (by decide) (by decide)⟩

/-! ## C10 — broadcastVoteUpdate swallows failures -/

/-- C10: calling `broadcastVoteUpdate` with a poll id matching no stored poll
emits nothing (whatever the environment would have done), and an error thrown
during recomputation or emission is caught inside: the caller always gets a
plain emission list, with nothing emitted on failure. -/
theorem C10_broadcast_silent_noop (s : Store) (pollId : String)
    (emitFailure : Option String) (failure : String) :
    (s.polls.find? (fun p => p.id == pollId) = none →
      broadcastVoteUpdate s pollId emitFailure = []) ∧
    broadcastVoteUpdate s pollId (some failure) = [] := by
  constructor
  · intro h
    simp [broadcastVoteUpdate, broadcastVoteUpdateBody, h]
  · simp only [broadcastVoteUpdate, broadcastVoteUpdateBody]
    match h : s.polls.find? (fun p => p.id == pollId) with
    | none => simp [h]
    | some p => simp [h]

/-- Witness for `C10_broadcast_silent_noop`: a store holding only `samplePoll`
has no poll `p-missing`, and the call emits nothing. -/
theorem C10_broadcast_silent_noop_witness :
    (sampleStore.polls.find? (fun p => p.id == "p-missing") = none →
      broadcastVoteUpdate sampleStore "p-missing" none = []) ∧
    broadcastVoteUpdate sampleStore "p-missing" (some "boom") = [] :=
  C10_broadcast_silent_noop sampleStore "p-missing" none "boom"

end Polling
